import Mathlib

/-!
Shallow embedding of the Redcode vocabulary core of `corewa-rs`:
the four `enum_string!`-generated enumerations (`Opcode`, `PseudoOpcode`,
`Modifier`, `AddressMode`) from `corewars-core/src/load_file/types.rs`,
the generic string derivation mechanism from `src/util.rs`
(`to_string`, `from_str`, `iter_values`), the modifier-inference function
`Modifier::default_88_to_94`, and the `Value` type with its `Display`
implementation (which delegates to `std::fmt::Formatter::pad`).
-/

namespace Corewars

/-- Embeds the Rust enum `Opcode` (17 variants, declaration order as in the
source). -/
inductive Opcode
  | Dat
  | Mov
  | Add
  | Sub
  | Mul
  | Div
  | Mod
  | Jmp
  | Jmz
  | Jmn
  | Djn
  | Cmp
  | Seq
  | Sne
  | Slt
  | Spl
  | Nop
  deriving DecidableEq, Fintype, Repr

/-- Embeds the Rust enum `PseudoOpcode` (4 variants). -/
inductive PseudoOpcode
  | Org
  | End
  | Equ
  | For
  deriving DecidableEq, Fintype, Repr

/-- Embeds the Rust enum `Modifier` (7 variants). -/
inductive Modifier
  | A
  | B
  | AB
  | BA
  | F
  | X
  | I
  deriving DecidableEq, Fintype, Repr

/-- Embeds the Rust enum `AddressMode` (8 variants). -/
inductive AddressMode
  | Immediate
  | Direct
  | IndirectA
  | IndirectB
  | PreDecIndirectA
  | PreDecIndirectB
  | PostIncIndirectA
  | PostIncIndirectB
  deriving DecidableEq, Fintype, Repr

/-- The error message format of the `enum_string!` macro's `from_str`:
`No variant <input> found for enum <Name>` (the apostrophes of the Rust
format string are written as escapes). -/
def no_variant_msg (ename s : String) : String :=
  "No variant \x27" ++ s ++ "\x27 found for enum \x27" ++ ename ++ "\x27"

/-- The generic `from_str` generated by the `enum_string!` macro in
`src/util.rs`: match the input string against the declared canonical strings
in declaration order; on no match, return the formatted error. -/
def enum_from_str {α : Type} (ename : String) : List (α × String) → String → Except String α
  | [], s => Except.error (no_variant_msg ename s)
  | (v, strv) :: rest, s =>
      if s = strv then Except.ok v else enum_from_str ename rest s

/-- The `(variant, canonical string)` declaration list of `Opcode`, in source
declaration order, as passed to `enum_string!`. -/
def Opcode.pairs : List (Opcode × String) :=
  [(.Dat, "DAT"), (.Mov, "MOV"), (.Add, "ADD"), (.Sub, "SUB"), (.Mul, "MUL"),
   (.Div, "DIV"), (.Mod, "MOD"), (.Jmp, "JMP"), (.Jmz, "JMZ"), (.Jmn, "JMN"),
   (.Djn, "DJN"), (.Cmp, "CMP"), (.Seq, "SEQ"), (.Sne, "SNE"), (.Slt, "SLT"),
   (.Spl, "SPL"), (.Nop, "NOP")]

/-- `ToString for Opcode` as generated by `enum_string!`: a total match from
variant to canonical string. -/
def Opcode.to_string : Opcode → String
  | .Dat => "DAT"
  | .Mov => "MOV"
  | .Add => "ADD"
  | .Sub => "SUB"
  | .Mul => "MUL"
  | .Div => "DIV"
  | .Mod => "MOD"
  | .Jmp => "JMP"
  | .Jmz => "JMZ"
  | .Jmn => "JMN"
  | .Djn => "DJN"
  | .Cmp => "CMP"
  | .Seq => "SEQ"
  | .Sne => "SNE"
  | .Slt => "SLT"
  | .Spl => "SPL"
  | .Nop => "NOP"

/-- `FromStr for Opcode` as generated by `enum_string!`. -/
def Opcode.from_str (s : String) : Except String Opcode :=
  enum_from_str "Opcode" Opcode.pairs s

/-- `Opcode::iter_values`: the const `VALUES` slice, all variants in
declaration order. -/
def Opcode.iter_values : List Opcode := Opcode.pairs.map Prod.fst

/-- The canonical strings of `Opcode` in declaration order. -/
def Opcode.canonical_strings : List String := Opcode.pairs.map Prod.snd

/-- The `(variant, canonical string)` declaration list of `PseudoOpcode`. -/
def PseudoOpcode.pairs : List (PseudoOpcode × String) :=
  [(.Org, "ORG"), (.End, "END"), (.Equ, "EQU"), (.For, "FOR")]

/-- `ToString for PseudoOpcode` as generated by `enum_string!`. -/
def PseudoOpcode.to_string : PseudoOpcode → String
  | .Org => "ORG"
  | .End => "END"
  | .Equ => "EQU"
  | .For => "FOR"

/-- `FromStr for PseudoOpcode` as generated by `enum_string!`. -/
def PseudoOpcode.from_str (s : String) : Except String PseudoOpcode :=
  enum_from_str "PseudoOpcode" PseudoOpcode.pairs s

/-- `PseudoOpcode::iter_values`. -/
def PseudoOpcode.iter_values : List PseudoOpcode := PseudoOpcode.pairs.map Prod.fst

/-- The canonical strings of `PseudoOpcode` in declaration order. -/
def PseudoOpcode.canonical_strings : List String := PseudoOpcode.pairs.map Prod.snd

/-- The `(variant, canonical string)` declaration list of `Modifier`. -/
def Modifier.pairs : List (Modifier × String) :=
  [(.A, "A"), (.B, "B"), (.AB, "AB"), (.BA, "BA"), (.F, "F"), (.X, "X"), (.I, "I")]

/-- `ToString for Modifier` as generated by `enum_string!`. -/
def Modifier.to_string : Modifier → String
  | .A => "A"
  | .B => "B"
  | .AB => "AB"
  | .BA => "BA"
  | .F => "F"
  | .X => "X"
  | .I => "I"

/-- `FromStr for Modifier` as generated by `enum_string!`. -/
def Modifier.from_str (s : String) : Except String Modifier :=
  enum_from_str "Modifier" Modifier.pairs s

/-- `Modifier::iter_values`. -/
def Modifier.iter_values : List Modifier := Modifier.pairs.map Prod.fst

/-- The canonical strings of `Modifier` in declaration order. -/
def Modifier.canonical_strings : List String := Modifier.pairs.map Prod.snd

/-- The `(variant, canonical string)` declaration list of `AddressMode`; the
brace characters of the Rust source are written as escapes. -/
def AddressMode.pairs : List (AddressMode × String) :=
  [(.Immediate, "#"), (.Direct, "$"), (.IndirectA, "*"), (.IndirectB, "@"),
   (.PreDecIndirectA, "\x7b"), (.PreDecIndirectB, "<"),
   (.PostIncIndirectA, "\x7d"), (.PostIncIndirectB, ">")]

/-- `ToString for AddressMode` as generated by `enum_string!`. -/
def AddressMode.to_string : AddressMode → String
  | .Immediate => "#"
  | .Direct => "$"
  | .IndirectA => "*"
  | .IndirectB => "@"
  | .PreDecIndirectA => "\x7b"
  | .PreDecIndirectB => "<"
  | .PostIncIndirectA => "\x7d"
  | .PostIncIndirectB => ">"

/-- `FromStr for AddressMode` as generated by `enum_string!`. -/
def AddressMode.from_str (s : String) : Except String AddressMode :=
  enum_from_str "AddressMode" AddressMode.pairs s

/-- `AddressMode::iter_values`. -/
def AddressMode.iter_values : List AddressMode := AddressMode.pairs.map Prod.fst

/-- The canonical strings of `AddressMode` in declaration order. -/
def AddressMode.canonical_strings : List String := AddressMode.pairs.map Prod.snd

/-- `Modifier::default_88_to_94` from `types.rs`. The Rust function panics in
the final catch-all arm (`unreachable!()`); the embedding returns `none`
there, so the function returns `some m` exactly when the Rust original
returns the modifier `m` without panicking. -/
def Modifier.default_88_to_94 (opcode : Opcode) (a_mode b_mode : AddressMode) :
    Option Modifier :=
  match opcode with
  | .Dat => some .F
  | .Jmp | .Jmz | .Jmn | .Djn | .Spl | .Nop => some .B
  | opcode =>
    if a_mode = .Immediate then some .AB
    else if b_mode = .Immediate then some .B
    else
      match opcode with
      | .Mov | .Cmp | .Seq | .Sne => some .I
      | .Slt => some .B
      | .Add | .Sub | .Mul | .Div | .Mod => some .F
      | _ => none

/-- Embeds the Rust enum `Value`: an unresolved label name or a resolved
signed integer (`Offset` = `i32`) literal. -/
inductive Value
  | Label : String → Value
  | Literal : Int → Value
  deriving DecidableEq, Repr

/-- The local `value_string` of `impl fmt::Display for Value`: a label
renders as its name, a literal as its decimal representation (with a minus
sign when negative, as `i32::to_string` produces). -/
def Value.value_string : Value → String
  | .Label v => v
  | .Literal v => toString v

/-- `std::fmt::Formatter::pad` for a format spec carrying only a minimum
width (no fill, alignment or precision flags): if the string already has at
least `width` characters it is written unchanged; otherwise it is padded
with spaces to `width` using the default alignment for strings, which is
left alignment (the fill spaces go after the content). -/
def fmt_pad (width : Nat) (s : String) : String :=
  if s.length ≥ width then s
  else s ++ String.mk (List.replicate (width - s.length) ' ')

/-- `impl fmt::Display for Value` rendered at minimum field width `width`:
`f.pad(&value_string)`. -/
def Value.render (v : Value) (width : Nat) : String :=
  fmt_pad width v.value_string

end Corewars

namespace Corewars

/-! ## Generic lemmas about the `enum_string!` derivation -/

/-- No declared canonical string matches: `from_str` returns the formatted
unknown-variant error. -/
theorem enum_from_str_not_mem {α : Type} (ename : String) (pairs : List (α × String))
    (s : String) (h : s ∉ pairs.map Prod.snd) :
    enum_from_str ename pairs s = Except.error (no_variant_msg ename s) := by
  induction pairs with
  | nil => rfl
  | cons p rest ih =>
    obtain ⟨v, strv⟩ := p
    simp only [List.map_cons, List.mem_cons, not_or] at h
    simp only [enum_from_str, if_neg h.1]
    exact ih h.2

/-- A successful `from_str` comes from a declared `(variant, string)` pair. -/
theorem enum_from_str_ok_mem {α : Type} (ename : String) (pairs : List (α × String))
    (s : String) (v : α) (h : enum_from_str ename pairs s = .ok v) : (v, s) ∈ pairs := by
  induction pairs with
  | nil => simp [enum_from_str] at h
  | cons p rest ih =>
    obtain ⟨w, strw⟩ := p
    by_cases hs : s = strw
    · simp only [enum_from_str, if_pos hs, Except.ok.injEq] at h
      subst h; subst hs; exact List.mem_cons_self _ _
    · simp only [enum_from_str, if_neg hs] at h
      exact List.mem_cons_of_mem _ (ih h)

/-- When the declared canonical strings are pairwise distinct, `from_str`
applied to a declared string returns its declared variant. -/
theorem enum_from_str_of_mem {α : Type} (ename : String) (pairs : List (α × String))
    (v : α) (s : String) (hnd : (pairs.map Prod.snd).Nodup) (h : (v, s) ∈ pairs) :
    enum_from_str ename pairs s = .ok v := by
  induction pairs with
  | nil => simp at h
  | cons p rest ih =>
    obtain ⟨w, strw⟩ := p
    simp only [List.map_cons, List.nodup_cons] at hnd
    rcases List.mem_cons.mp h with heq | hmem
    · obtain ⟨rfl, rfl⟩ := Prod.mk.injEq .. ▸ heq
      · simp [enum_from_str]
    · have hne : s ≠ strw := by
        intro hc
        exact hnd.1 (hc ▸ List.mem_map_of_mem Prod.snd hmem)
      simp only [enum_from_str, if_neg hne]
      exact ih hnd.2 hmem

/-- `from_str` succeeds exactly on the declared canonical strings, and its
successful result maps back through `to_string` to the input string, given
distinct canonical strings and a `to_string` agreeing with the pair list. -/
theorem enum_inverse {α : Type} (ename : String) (pairs : List (α × String))
    (ts : α → String) (hnd : (pairs.map Prod.snd).Nodup)
    (hts : ∀ p ∈ pairs, ts p.1 = p.2) :
    (∀ s, (∃ v, enum_from_str ename pairs s = Except.ok v) ↔ s ∈ pairs.map Prod.snd) ∧
    (∀ s v, enum_from_str ename pairs s = Except.ok v → ts v = s) := by
  constructor
  · intro s
    constructor
    · rintro ⟨v, hv⟩
      exact List.mem_map_of_mem Prod.snd (enum_from_str_ok_mem ename pairs s v hv)
    · intro hs
      rcases List.mem_map.mp hs with ⟨⟨v, t⟩, hmem, ht⟩
      cases ht
      exact ⟨v, enum_from_str_of_mem ename pairs v t hnd hmem⟩
  · intro s v hv
    exact hts (v, s) (enum_from_str_ok_mem ename pairs s v hv)

/-- `Formatter::pad` with a width-only spec appends `width - length` fill
spaces after the content (none when the content already reaches `width`). -/
theorem fmt_pad_eq (w : Nat) (s : String) :
    fmt_pad w s = s ++ String.mk (List.replicate (w - s.length) ' ') := by
  unfold fmt_pad
  split
  · next h =>
    rw [Nat.sub_eq_zero_of_le h]
    simp
  · rfl

end Corewars

namespace Corewars

/-! ## Claim theorems -/

/-- Claim C1, counterexample: the claim states rendering is left-padded
(right-aligned), but `Formatter::pad` with a width-only spec left-aligns
strings, so `Value::literal(-5)` rendered at width 4 is `"-5  "`, not
`"  -5"`. -/
theorem value_render_left_aligned_counterexample :
    Value.render (Value.Literal (-5)) 4 = "-5  " ∧
    Value.render (Value.Literal (-5)) 4 ≠ "  -5" := by
  decide

/-- Claim C1 (amended): rendering a `Value` to width `w` produces the
label's name (for a `Label`) or the decimal representation including any
minus sign (for a `Literal`), right-padded with spaces (left-aligned) to
reach width `w`, and leaves the content unchanged when its length is
already at least `w`. -/
theorem value_render_spec :
    (∀ (s : String) (w : Nat),
        Value.render (Value.Label s) w =
          s ++ String.mk (List.replicate (w - s.length) ' ')) ∧
    (∀ (n : Int) (w : Nat),
        Value.render (Value.Literal n) w =
          toString n ++ String.mk (List.replicate (w - (toString n).length) ' ')) ∧
    (∀ (v : Value) (w : Nat), w ≤ (Value.value_string v).length →
        Value.render v w = Value.value_string v) := by
  refine ⟨fun s w => fmt_pad_eq w s, fun n w => fmt_pad_eq w (toString n), fun v w h => ?_⟩
  unfold Value.render fmt_pad
  rw [if_pos h]

/-- Witness for `value_render_spec`: the width-0 rendering of
`Value::label("some_label")` is the unchanged content. -/
theorem value_render_spec_witness :
    Value.render (Value.Label "some_label") 0 = "some_label" :=
  value_render_spec.2.2 (Value.Label "some_label") 0 (by decide)

/-- Claim C2: `Modifier::default_88_to_94` is total over all
17 × 8 × 8 = 1088 input combinations — it always returns a modifier, and
the `unreachable!()` arm (embedded as `none`) is never taken. -/
theorem default_88_to_94_total :
    ∀ (opcode : Opcode) (a_mode b_mode : AddressMode),
      (Modifier.default_88_to_94 opcode a_mode b_mode).isSome = true := by
  decide

/-- Claim C3: for every pair of addressing modes, `DAT` infers modifier
`F`, regardless of the modes. -/
theorem default_88_to_94_dat :
    ∀ (a_mode b_mode : AddressMode),
      Modifier.default_88_to_94 .Dat a_mode b_mode = some Modifier.F := by
  decide

/-- Claim C4: for every opcode in JMP, JMZ, JMN, DJN, SPL, NOP and every
pair of addressing modes, the inferred modifier is `B`. -/
theorem default_88_to_94_b_group :
    ∀ opcode ∈ ([.Jmp, .Jmz, .Jmn, .Djn, .Spl, .Nop] : List Opcode),
      ∀ (a_mode b_mode : AddressMode),
        Modifier.default_88_to_94 opcode a_mode b_mode = some Modifier.B := by
  decide

/-- Witness for `default_88_to_94_b_group` at `JMP $, $`. -/
theorem default_88_to_94_b_group_witness :
    Modifier.default_88_to_94 .Jmp .Direct .Direct = some Modifier.B :=
  default_88_to_94_b_group Opcode.Jmp (by decide) AddressMode.Direct AddressMode.Direct

/-- Claim C5: for every opcode in MOV, ADD, SUB, MUL, DIV, MOD, CMP, SEQ,
SNE, SLT with an Immediate A-mode, every B-mode infers modifier `AB`. -/
theorem default_88_to_94_immediate_a :
    ∀ opcode ∈ ([.Mov, .Add, .Sub, .Mul, .Div, .Mod, .Cmp, .Seq, .Sne, .Slt] : List Opcode),
      ∀ b_mode : AddressMode,
        Modifier.default_88_to_94 opcode .Immediate b_mode = some Modifier.AB := by
  decide

/-- Witness for `default_88_to_94_immediate_a` at `MOV #, $`. -/
theorem default_88_to_94_immediate_a_witness :
    Modifier.default_88_to_94 .Mov .Immediate .Direct = some Modifier.AB :=
  default_88_to_94_immediate_a Opcode.Mov (by decide) AddressMode.Direct

/-- Claim C6: for the ten arithmetic/comparison/move opcodes with a
non-Immediate A-mode: an Immediate B-mode gives `B` uniformly; with neither
mode Immediate, MOV, CMP, SEQ, SNE give `I`, SLT gives `B`, and ADD, SUB,
MUL, DIV, MOD give `F`. -/
theorem default_88_to_94_non_immediate :
    (∀ opcode ∈ ([.Mov, .Add, .Sub, .Mul, .Div, .Mod, .Cmp, .Seq, .Sne, .Slt] : List Opcode),
      ∀ a_mode : AddressMode, a_mode ≠ .Immediate →
        Modifier.default_88_to_94 opcode a_mode .Immediate = some Modifier.B) ∧
    (∀ opcode ∈ ([.Mov, .Cmp, .Seq, .Sne] : List Opcode),
      ∀ a_mode b_mode : AddressMode, a_mode ≠ .Immediate → b_mode ≠ .Immediate →
        Modifier.default_88_to_94 opcode a_mode b_mode = some Modifier.I) ∧
    (∀ a_mode b_mode : AddressMode, a_mode ≠ .Immediate → b_mode ≠ .Immediate →
        Modifier.default_88_to_94 .Slt a_mode b_mode = some Modifier.B) ∧
    (∀ opcode ∈ ([.Add, .Sub, .Mul, .Div, .Mod] : List Opcode),
      ∀ a_mode b_mode : AddressMode, a_mode ≠ .Immediate → b_mode ≠ .Immediate →
        Modifier.default_88_to_94 opcode a_mode b_mode = some Modifier.F) := by
  refine ⟨by decide, by decide, by decide, by decide⟩

/-- Witness for `default_88_to_94_non_immediate`: one concrete instance of
each of its four groups. -/
theorem default_88_to_94_non_immediate_witness :
    Modifier.default_88_to_94 .Mov .Direct .Immediate = some Modifier.B ∧
    Modifier.default_88_to_94 .Mov .Direct .Direct = some Modifier.I ∧
    Modifier.default_88_to_94 .Slt .Direct .Direct = some Modifier.B ∧
    Modifier.default_88_to_94 .Add .Direct .Direct = some Modifier.F :=
  ⟨default_88_to_94_non_immediate.1 Opcode.Mov (by decide) AddressMode.Direct (by decide),
   default_88_to_94_non_immediate.2.1 Opcode.Mov (by decide) AddressMode.Direct
     AddressMode.Direct (by decide) (by decide),
   default_88_to_94_non_immediate.2.2.1 AddressMode.Direct AddressMode.Direct
     (by decide) (by decide),
   default_88_to_94_non_immediate.2.2.2 Opcode.Add (by decide) AddressMode.Direct
     AddressMode.Direct (by decide) (by decide)⟩

/-- Claim C7: for every variant of the four vocabulary types, parsing its
canonical string succeeds and yields the variant back. -/
theorem enum_round_trip :
    (∀ v : Opcode, Opcode.from_str (Opcode.to_string v) = Except.ok v) ∧
    (∀ v : PseudoOpcode, PseudoOpcode.from_str (PseudoOpcode.to_string v) = Except.ok v) ∧
    (∀ v : Modifier, Modifier.from_str (Modifier.to_string v) = Except.ok v) ∧
    (∀ v : AddressMode, AddressMode.from_str (AddressMode.to_string v) = Except.ok v) := by
  refine ⟨fun v => ?_, fun v => ?_, fun v => ?_, fun v => ?_⟩ <;> cases v <;> rfl

/-- Claim C8: for each vocabulary type, `from_str` on any string that is
not one of the declared canonical strings (exact, case-sensitive matching)
returns the unknown-variant error naming both the offending string and the
type's name — never a variant. -/
theorem enum_unknown_string :
    (∀ s : String, s ∉ Opcode.canonical_strings →
      Opcode.from_str s = Except.error (no_variant_msg "Opcode" s)) ∧
    (∀ s : String, s ∉ PseudoOpcode.canonical_strings →
      PseudoOpcode.from_str s = Except.error (no_variant_msg "PseudoOpcode" s)) ∧
    (∀ s : String, s ∉ Modifier.canonical_strings →
      Modifier.from_str s = Except.error (no_variant_msg "Modifier" s)) ∧
    (∀ s : String, s ∉ AddressMode.canonical_strings →
      AddressMode.from_str s = Except.error (no_variant_msg "AddressMode" s)) :=
  ⟨fun s h => enum_from_str_not_mem "Opcode" Opcode.pairs s h,
   fun s h => enum_from_str_not_mem "PseudoOpcode" PseudoOpcode.pairs s h,
   fun s h => enum_from_str_not_mem "Modifier" Modifier.pairs s h,
   fun s h => enum_from_str_not_mem "AddressMode" AddressMode.pairs s h⟩

/-- Witness for `enum_unknown_string` at the source test's input
`"Should fail"`, with the resulting message spelled out. -/
theorem enum_unknown_string_witness :
    Opcode.from_str "Should fail" = Except.error (no_variant_msg "Opcode" "Should fail") ∧
    PseudoOpcode.from_str "Should fail" =
      Except.error (no_variant_msg "PseudoOpcode" "Should fail") ∧
    Modifier.from_str "Should fail" = Except.error (no_variant_msg "Modifier" "Should fail") ∧
    AddressMode.from_str "Should fail" =
      Except.error (no_variant_msg "AddressMode" "Should fail") ∧
    no_variant_msg "Opcode" "Should fail" =
      "No variant \x27Should fail\x27 found for enum \x27Opcode\x27" :=
  ⟨enum_unknown_string.1 "Should fail" (by decide),
   enum_unknown_string.2.1 "Should fail" (by decide),
   enum_unknown_string.2.2.1 "Should fail" (by decide),
   enum_unknown_string.2.2.2 "Should fail" (by decide),
   by rfl⟩

/-- Claim C9: for each vocabulary type, `iter_values` lists every declared
variant exactly once, in declaration order, with lengths 17, 4, 8, 7; it is
a pure constant, so repeated uses yield the same sequence. -/
theorem enum_iter_values :
    (∀ v : Opcode, Opcode.iter_values.count v = 1) ∧
    Opcode.iter_values =
      [.Dat, .Mov, .Add, .Sub, .Mul, .Div, .Mod, .Jmp, .Jmz, .Jmn, .Djn, .Cmp,
       .Seq, .Sne, .Slt, .Spl, .Nop] ∧
    Opcode.iter_values.length = 17 ∧
    (∀ v : PseudoOpcode, PseudoOpcode.iter_values.count v = 1) ∧
    PseudoOpcode.iter_values = [.Org, .End, .Equ, .For] ∧
    PseudoOpcode.iter_values.length = 4 ∧
    (∀ v : AddressMode, AddressMode.iter_values.count v = 1) ∧
    AddressMode.iter_values =
      [.Immediate, .Direct, .IndirectA, .IndirectB, .PreDecIndirectA,
       .PreDecIndirectB, .PostIncIndirectA, .PostIncIndirectB] ∧
    AddressMode.iter_values.length = 8 ∧
    (∀ v : Modifier, Modifier.iter_values.count v = 1) ∧
    Modifier.iter_values = [.A, .B, .AB, .BA, .F, .X, .I] ∧
    Modifier.iter_values.length = 7 := by
  refine ⟨by decide, by decide, by decide, by decide, by decide, by decide,
    by decide, by decide, by decide, by decide, by decide, by decide⟩

/-- Claim C10: for each vocabulary type, `from_str` succeeds exactly on the
declared canonical strings, and whenever it returns a variant, `to_string`
of that variant is the input string: the two maps are mutually inverse
between variants and canonical strings. -/
theorem enum_inverse_round_trip :
    ((∀ s, (∃ v, Opcode.from_str s = Except.ok v) ↔ s ∈ Opcode.canonical_strings) ∧
     (∀ s v, Opcode.from_str s = Except.ok v → Opcode.to_string v = s)) ∧
    ((∀ s, (∃ v, PseudoOpcode.from_str s = Except.ok v) ↔ s ∈ PseudoOpcode.canonical_strings) ∧
     (∀ s v, PseudoOpcode.from_str s = Except.ok v → PseudoOpcode.to_string v = s)) ∧
    ((∀ s, (∃ v, Modifier.from_str s = Except.ok v) ↔ s ∈ Modifier.canonical_strings) ∧
     (∀ s v, Modifier.from_str s = Except.ok v → Modifier.to_string v = s)) ∧
    ((∀ s, (∃ v, AddressMode.from_str s = Except.ok v) ↔ s ∈ AddressMode.canonical_strings) ∧
     (∀ s v, AddressMode.from_str s = Except.ok v → AddressMode.to_string v = s)) :=
  ⟨enum_inverse "Opcode" Opcode.pairs Opcode.to_string (by decide) (by decide),
   enum_inverse "PseudoOpcode" PseudoOpcode.pairs PseudoOpcode.to_string (by decide) (by decide),
   enum_inverse "Modifier" Modifier.pairs Modifier.to_string (by decide) (by decide),
   enum_inverse "AddressMode" AddressMode.pairs AddressMode.to_string (by decide) (by decide)⟩

/-- Witness for `enum_inverse_round_trip`: concrete successful parses
mapped back to their input strings, and a concrete membership. -/
theorem enum_inverse_round_trip_witness :
    Opcode.to_string Opcode.Dat = "DAT" ∧
    PseudoOpcode.to_string PseudoOpcode.Org = "ORG" ∧
    Modifier.to_string Modifier.AB = "AB" ∧
    AddressMode.to_string AddressMode.Immediate = "#" ∧
    (∃ v, Opcode.from_str "MOV" = Except.ok v) :=
  ⟨enum_inverse_round_trip.1.2 "DAT" Opcode.Dat rfl,
   enum_inverse_round_trip.2.1.2 "ORG" PseudoOpcode.Org rfl,
   enum_inverse_round_trip.2.2.1.2 "AB" Modifier.AB rfl,
   enum_inverse_round_trip.2.2.2.2 "#" AddressMode.Immediate rfl,
   (enum_inverse_round_trip.1.1 "MOV").mpr (by decide)⟩

end Corewars
